import Mathlib

set_option maxHeartbeats 1000000

/-!
Verification development for the prgpu GPU resource-caching and
kernel-dispatch layer (Rust sources under src/gpu/).

Modelling conventions:
* native handles (MTLDevice*, MTLBuffer*, CUmodule, CUfunction, PTX blobs,
  libraries, pipeline-state objects) are natural numbers; `0` is the null
  pointer/handle;
* the native driver calls (allocation, NVRTC/Metal compilation, module
  loading, kernel launch, capability queries) are external capabilities and
  are modelled as oracles passed in as function arguments;
* the process-wide caches are explicit states threaded through the
  functions; each model function performs exactly the lookups, insertions
  and error returns of its Rust counterpart;
* `u32` quantities are naturals (cache-key fields are only compared, never
  overflowed); the one place the code does `u32` arithmetic on them,
  `compute_row_bytes`, uses `saturating_mul` and is modelled with an
  explicit saturation at `2^32 - 1`;
* `f32` values (`progress`) are only ever copied by this layer, never
  computed with, so they are carried as opaque bit patterns (naturals).
-/

namespace PrGpu

/-- Association-list lookup, modelling `HashMap::get` on the cache maps. -/
def assoc {α β : Type} [DecidableEq α] : List (α × β) → α → Option β
  | [], _ => none
  | (k, v) :: t, a => if k = a then some v else assoc t a

def U32 : Nat := 2 ^ 32

/-! ## Buffer cache

From src/gpu/backends/metal/buffer.rs (pointer-based `DeviceHandleInit::FromPtr`
path); the CUDA variant src/gpu/backends/cuda/buffer.rs lines 81-113 has the
identical cache logic around its (unimplemented) native allocator.
The native allocator `newBufferWithLength` is the oracle
`alloc : Nat → Nat`, giving the raw handle returned by the n-th allocation
performed in the process; `BufState.allocs` counts allocations performed. -/

structure BufferKey where
  device : Nat
  width : Nat
  height : Nat
  bytes_per_pixel : Nat
  tag : Nat
deriving DecidableEq

structure ImageBuffer where
  buf : Nat
  width : Nat
  height : Nat
  bytes_per_pixel : Nat
  row_bytes : Nat
  pitch_px : Nat
deriving DecidableEq

/-- `width.saturating_mul(bytes_per_pixel)` on u32. -/
def compute_row_bytes (width bytes_per_pixel : Nat) : Nat :=
  min (width * bytes_per_pixel) (U32 - 1)

/-- `(width as u64) * (height as u64) * (bytes_per_pixel as u64)`,
wrapping mod 2^64 as u64 arithmetic does in release builds. -/
def compute_length_bytes (width height bytes_per_pixel : Nat) : Nat :=
  width * height * bytes_per_pixel % 2 ^ 64

structure BufState where
  cache : List (BufferKey × Nat)
  allocs : Nat
deriving DecidableEq

namespace Buffer

/-- `get_or_create(device, width, height, bytes_per_pixel, tag)`:
look the key up under the cache lock; on a miss call the native allocator
and insert whatever raw handle it returned; either way return an
`ImageBuffer` view whose strides are derived from the key. -/
def get_or_create (alloc : Nat → Nat) (st : BufState)
    (device width height bytes_per_pixel tag : Nat) : ImageBuffer × BufState :=
  let key : BufferKey := ⟨device, width, height, bytes_per_pixel, tag⟩
  match assoc st.cache key with
  | some existing =>
    (⟨existing, width, height, bytes_per_pixel,
      compute_row_bytes width bytes_per_pixel, width⟩, st)
  | none =>
    let raw := alloc st.allocs
    (⟨raw, width, height, bytes_per_pixel,
      compute_row_bytes width bytes_per_pixel, width⟩,
     ⟨(key, raw) :: st.cache, st.allocs + 1⟩)

/-- `cleanup()`: drain the map, sending `release` to every non-null cached
handle. Returns the list of released handles together with the new state. -/
def cleanup (st : BufState) : List Nat × BufState :=
  ((st.cache.map Prod.snd).filter (fun hdl => decide (hdl ≠ 0)), ⟨[], st.allocs⟩)

end Buffer

namespace CudaBuffer

/-- src/gpu/backends/cuda/buffer.rs line 116: the body of `cleanup` is
`todo!("Implement clean for CUDA backend")` — the call panics and never
produces a post-state; modelled as `none`. -/
def cleanup : Option (List Nat × BufState) := none

end CudaBuffer

/-! ## Launch geometry

From src/gpu/backends/cuda/mod.rs lines 174-177 (fixed 16 by 16 block) and
src/gpu/backends/metal/mod.rs lines 198-203 (thread-group shape derived from
the pipeline-reported `threadExecutionWidth` and
`maxTotalThreadsPerThreadgroup`). -/

/-- Rust `div_ceil` on unsigned integers. -/
def divCeil (a b : Nat) : Nat := a / b + (if a % b = 0 then 0 else 1)

def cudaBlock : Nat × Nat := (16, 16)

def cudaGrid (width height : Nat) : Nat × Nat := (divCeil width 16, divCeil height 16)

/-- `tg_w = tew.max(1); tg_h = (max_threads / tg_w).clamp(1, 16)`. -/
def metalBlock (tew maxTotal : Nat) : Nat × Nat :=
  let tg_w := max tew 1
  let tg_h := min (max (maxTotal / tg_w) 1) 16
  (tg_w, tg_h)

def metalGrid (tew maxTotal width height : Nat) : Nat × Nat :=
  (divCeil width (metalBlock tew maxTotal).1, divCeil height (metalBlock tew maxTotal).2)

/-! ## Runtime include expansion

From src/gpu/shaders.rs `expand_includes_runtime` / `expand_one`.
A source file is a list of lines, each either an `#include "path"` directive
or plain text; the file system `FS` maps resolved canonical paths to parsed
contents (path resolution through the parent directory and the include
directories is abstracted away: an include whose resolved path is absent
from `FS` is the code's "include not found" error). `expand_one`'s
visited-path `stack` is an explicit argument. The Lean function is total
(well-founded recursion on the number of files not yet on the stack), which
is the model of the code's termination. -/

inductive Line where
  | inc (path : String)
  | text (s : String)
deriving DecidableEq

abbrev FS := List (String × List Line)

/-- The include directives of a parsed source. -/
def incs : List Line → List String
  | [] => []
  | .inc p :: rest => p :: incs rest
  | .text _ :: rest => incs rest

/-- Number of file-system entries whose path is not on the visited stack:
the termination measure of the expansion walker. -/
def freeCount (fs : FS) (stack : List String) : Nat :=
  (fs.filter (fun e => decide (e.1 ∉ stack))).length

theorem freeCount_cons (k : String) (v : List Line) (t : FS) (stack : List String) :
    freeCount ((k, v) :: t) stack = (if k ∈ stack then 0 else 1) + freeCount t stack := by
  by_cases h : k ∈ stack <;> simp [freeCount, List.filter_cons, h] <;> omega

theorem freeCount_le (fs : FS) (p : String) (stack : List String) :
    freeCount fs (p :: stack) ≤ freeCount fs stack := by
  induction fs with
  | nil => simp [freeCount]
  | cons e t ih =>
    obtain ⟨k, v⟩ := e
    rw [freeCount_cons, freeCount_cons]
    have hif : (if k ∈ p :: stack then (0 : Nat) else 1) ≤ (if k ∈ stack then 0 else 1) := by
      by_cases h1 : k ∈ stack
      · simp [h1, List.mem_cons_of_mem p h1]
      · split <;> simp
    exact Nat.add_le_add hif ih

theorem freeCount_lt (fs : FS) (p : String) (stack : List String)
    (l : List Line) (hfind : assoc fs p = some l) (hmem : p ∉ stack) :
    freeCount fs (p :: stack) < freeCount fs stack := by
  induction fs with
  | nil => simp [assoc] at hfind
  | cons e t ih =>
    obtain ⟨k, v⟩ := e
    rw [freeCount_cons, freeCount_cons]
    by_cases h2 : k = p
    · subst h2
      have h3 : k ∈ k :: stack := List.mem_cons_self k stack
      rw [if_pos h3, if_neg hmem]
      have hle := freeCount_le t k stack
      omega
    · have hfind2 : assoc t p = some l := by
        simpa [assoc, h2] using hfind
      have hlt := ih hfind2
      have hif : (if k ∈ p :: stack then (0 : Nat) else 1) = (if k ∈ stack then 0 else 1) := by
        by_cases h1 : k ∈ stack
        · simp [h1, List.mem_cons_of_mem p h1]
        · have h4 : k ∉ p :: stack := by simp [h2, h1]
          simp [h4, h1]
      rw [hif]
      omega

/-- The recursive walker: `expand_one`'s line loop. On an `#include` line it
resolves the path (error if absent from the file system, matching the
canonicalize/read failure), rejects a path already on the visited stack as a
circular include, and otherwise splices in the recursive expansion. -/
def expandL (fs : FS) (stack : List String) : List Line → Except String String
  | [] => .ok ""
  | .text s :: rest =>
    match expandL fs stack rest with
    | .error e => .error e
    | .ok r => .ok (s ++ "\n" ++ r)
  | .inc p :: rest =>
    match hfind : assoc fs p with
    | none => .error ("include not found: " ++ p)
    | some lp =>
      if hmem : p ∈ stack then .error ("circular include at " ++ p)
      else
        match expandL fs (p :: stack) lp with
        | .error e => .error e
        | .ok chunk =>
          match expandL fs stack rest with
          | .error e => .error e
          | .ok r => .ok (chunk ++ "\n" ++ r)
termination_by lines => (freeCount fs stack, lines.length)
decreasing_by
  · apply Prod.Lex.right
    simp
  · apply Prod.Lex.left
    exact freeCount_lt fs p stack lp hfind hmem
  · apply Prod.Lex.right
    simp

/-- `expand_includes_runtime`: the source is written to a temporary root
file whose canonical path is `root`, and the walker starts with that path
on the visited stack. -/
def expand_includes_runtime (fs : FS) (root : String) (src : List Line) :
    Except String String :=
  expandL fs [root] src

/-- Include targets of the file at path `p` (empty if the path does not resolve). -/
def fileIncs (fs : FS) (p : String) : List String :=
  match assoc fs p with
  | some l => incs l
  | none => []

/-- One edge of the include graph: file `p` has an `#include` of `q`. -/
def stepInc (fs : FS) (p q : String) : Prop := q ∈ fileIncs fs p

/-- `c` is reachable in the include graph from the directives of `lines`. -/
def ReachFromLines (fs : FS) (lines : List Line) (c : String) : Prop :=
  ∃ m ∈ incs lines, Relation.ReflTransGen (stepInc fs) m c

/-- The include graph below `lines` contains a cycle: some reachable file
includes itself directly or transitively. -/
def HasReachableCycle (fs : FS) (lines : List Line) : Prop :=
  ∃ c, ReachFromLines fs lines c ∧ Relation.TransGen (stepInc fs) c c

/-- Expansion of the file at `x` succeeded with `x` itself on the visited stack. -/
def OkAt (fs : FS) (x : String) : Prop :=
  ∃ stack lx s, assoc fs x = some lx ∧ expandL fs (x :: stack) lx = .ok s

/-! ## Transition parameters, configuration, argument slots

From src/types/config.rs. Pitch fields are i32 in the configuration and are
cast `as u32` when the `TransitionParams` value is built
(two's-complement reinterpretation); `progress : f32` is only ever copied,
so it is carried as an opaque bit pattern. -/

structure TransitionParams where
  out_pitch : Nat
  in_pitch : Nat
  dest_pitch : Nat
  width : Nat
  height : Nat
  progress : Nat
deriving DecidableEq

structure Configuration where
  device_handle : Nat
  context_handle : Option Nat
  command_queue_handle : Nat
  outgoing_data : Nat
  incoming_data : Nat
  dest_data : Nat
  outgoing_pitch_px : Int
  incoming_pitch_px : Int
  dest_pitch_px : Int
  width : Nat
  height : Nat
  is16f : Bool
  progress : Nat
deriving DecidableEq

/-- `i32 as u32` two's-complement cast. -/
def toU32 (i : Int) : Nat := (i % (2 ^ 32 : Int)).toNat

/-- The `TransitionParams` value both backends build from the configuration. -/
def mkTransitionParams (config : Configuration) : TransitionParams :=
  { out_pitch := toU32 config.outgoing_pitch_px
    in_pitch := toU32 config.incoming_pitch_px
    dest_pitch := toU32 config.dest_pitch_px
    width := config.width
    height := config.height
    progress := config.progress }

/-- One bound argument slot of a kernel launch: a raw data buffer, the
transition-parameters value, or the opaque user-parameter blob. -/
inductive Slot where
  | buf (handle : Nat)
  | params (p : TransitionParams)
  | user (blob : Nat)
deriving DecidableEq

/-! ## CUDA kernel cache and dispatch

From src/gpu/backends/cuda/pipeline.rs and src/gpu/backends/cuda/mod.rs.
NVRTC, module loading, `cuCtxSetCurrent`, the capability query and the
launch itself are driver capabilities, modelled by `CudaOracle`.
`CudaState.nvrtc` counts NVRTC invocations, `launches`/`launchLog` record
submitted kernel launches. -/

structure KernelPair where
  module_f32 : Nat
  func_f32 : Nat
  module_f16 : Nat
  func_f16 : Nat
deriving DecidableEq

structure CudaOracle where
  capability : Nat → Option (Nat × Nat)
  nvrtcWithArch : String → String → Option Nat
  nvrtcNoArch : String → Option Nat
  moduleLoadData : Nat → Option Nat
  moduleGetFunction : Nat → String → Option Nat
  ctxSetCurrent : Nat → Bool
  launchOk : Bool

structure CudaLaunch where
  func : Nat
  grid : Nat × Nat
  block : Nat × Nat
  args : List Slot
deriving DecidableEq

structure CudaState where
  cache : List ((Nat × String) × KernelPair)
  nvrtc : Nat
  launches : Nat
  launchLog : List CudaLaunch
deriving DecidableEq

/-- The `--gpu-architecture=compute_{major}{minor}` hint string. -/
def archString (major minor : Nat) : String :=
  "compute_" ++ toString major ++ toString minor

/-- The `#define USE_HALF_PRECISION 1` line prepended for the f16 variant. -/
def halfSrcHeader : String := "#define USE_HALF_PRECISION 1\n"

/-- `compile_ptx`: reject a null device handle, query compute capability,
try NVRTC with the architecture hint, and on failure retry exactly once
without it. Returns the result together with the number of NVRTC
invocations made. -/
def compile_ptx (o : CudaOracle) (src fname : String) (dev_handle : Nat) :
    Except String Nat × Nat :=
  if dev_handle = 0 then (.error "null device handle", 0)
  else
    match o.capability dev_handle with
    | none => (.error "CUDA error", 0)
    | some (major, minor) =>
      match o.nvrtcWithArch (archString major minor) src with
      | some ptx => (.ok ptx, 1)
      | none =>
        match o.nvrtcNoArch src with
        | some ptx => (.ok ptx, 2)
        | none => (.error "NVRTC compile error", 2)

/-- `load_module_and_func`: `cuModuleLoadData` then `cuModuleGetFunction`. -/
def load_module_and_func (o : CudaOracle) (ptx : Nat) (fname : String) :
    Except String (Nat × Nat) :=
  match o.moduleLoadData ptx with
  | none => .error "CUDA error"
  | some m =>
    match o.moduleGetFunction m fname with
    | none => .error "CUDA error"
    | some f => .ok (m, f)

namespace Cuda

/-- CUDA `get_pso_pair`: the cache key is `(ctx as usize, fname)` — the
shader source does not enter the key. On a miss both precision variants are
compiled (the f16 one from the macro-prefixed source) and the pair is
inserted only after every step succeeded. -/
def get_pso_pair (o : CudaOracle) (st : CudaState) (ctx : Nat)
    (shader_src fname : String) (device_handle : Nat) :
    Except String (Nat × Nat) × CudaState :=
  if ctx = 0 then (.error "null context", st)
  else
    match assoc st.cache (ctx, fname) with
    | some k => (.ok (k.func_f32, k.func_f16), st)
    | none =>
      if o.ctxSetCurrent ctx = false then (.error "CUDA error", st)
      else
        match compile_ptx o shader_src fname device_handle with
        | (.error e, n1) => (.error e, { st with nvrtc := st.nvrtc + n1 })
        | (.ok ptx_f32, n1) =>
          match compile_ptx o (halfSrcHeader ++ shader_src) fname device_handle with
          | (.error e, n2) => (.error e, { st with nvrtc := st.nvrtc + n1 + n2 })
          | (.ok ptx_f16, n2) =>
            let st2 : CudaState := { st with nvrtc := st.nvrtc + n1 + n2 }
            match load_module_and_func o ptx_f32 fname with
            | .error e => (.error e, st2)
            | .ok (module_f32, func_f32) =>
              match load_module_and_func o ptx_f16 fname with
              | .error e => (.error e, st2)
              | .ok (module_f16, func_f16) =>
                (.ok (func_f32, func_f16),
                 { st2 with cache :=
                    ((ctx, fname), ⟨module_f32, func_f32, module_f16, func_f16⟩) :: st2.cache })

/-- CUDA `dispatch`: null-handle guard, `cuCtxSetCurrent`, `cuLaunchKernel`. -/
def dispatch (o : CudaOracle) (st : CudaState) (ctx stream func : Nat)
    (grid_x grid_y block_x block_y : Nat) (args : List Slot) :
    Except String Unit × CudaState :=
  if ctx = 0 ∨ stream = 0 ∨ func = 0 then (.error "null handle", st)
  else if o.ctxSetCurrent ctx = false then (.error "CUDA error", st)
  else if o.launchOk = false then (.error "CUDA error", st)
  else
    (.ok (), { st with
                launches := st.launches + 1
                launchLog := st.launchLog ++
                  [⟨func, (grid_x, grid_y), (block_x, block_y), args⟩] })

/-- CUDA `run` (src/gpu/backends/cuda/mod.rs lines 121-223): validate the
context/queue and data-buffer handles, obtain the kernel pair, select the
precision variant, build the five argument slots, compute the launch grid
from the fixed 16 by 16 block, and submit. The CUDA-event timing calls do
not affect the dispatch result and are not modelled. -/
def run (o : CudaOracle) (st : CudaState) (config : Configuration)
    (user_params : Nat) (shader_src entry : String) :
    Except String Unit × CudaState :=
  if config.context_handle = none ∨ config.command_queue_handle = 0 then
    (.error "Invalid CUDA handles", st)
  else if config.outgoing_data = 0 ∨ config.incoming_data = 0 ∨ config.dest_data = 0 then
    (.error "null buffers", st)
  else
    match get_pso_pair o st (config.context_handle.getD 0) shader_src entry
        config.device_handle with
    | (.error e, st1) => (.error e, st1)
    | (.ok (func_f32, func_f16), st1) =>
      let func := if config.is16f then func_f16 else func_f32
      let args : List Slot := [.buf config.outgoing_data, .buf config.incoming_data,
        .buf config.dest_data, .params (mkTransitionParams config), .user user_params]
      dispatch o st1 (config.context_handle.getD 0) config.command_queue_handle func
        (cudaGrid config.width config.height).1 (cudaGrid config.width config.height).2
        16 16 args

end Cuda

/-! ## Metal pipeline cache and dispatch

From src/gpu/backends/metal/pipeline.rs and src/gpu/backends/metal/mod.rs.
The cache key is `(device, hash(shader_src), hash(fname))`; the string
hasher (`DefaultHasher`), library compilation (with or without the
`USE_HALF_PRECISION` preprocessor definition), function/pipeline creation,
the transient argument-buffer creations and the geometry queries are
capabilities in `MetalOracle`. The debug-build hot-reload path is the
`Option HotCfg` argument: `none` is the production configuration that uses
the embedded source verbatim. -/

structure Pipelines where
  library : Nat
  pso_full : Nat
  pso_half : Nat
deriving DecidableEq

structure MetalOracle where
  hashStr : String → Nat
  newLibrary : Bool → String → Option Nat
  newFunction : Nat → String → Option Nat
  newPipeline : Nat → Option Nat
  tew : Nat → Nat
  maxTotal : Nat → Nat
  paramsBufOk : Bool
  userBufOk : Bool
  cmdBufOk : Bool
  encoderOk : Bool

structure MetalLaunch where
  pipeline : Nat
  slots : List Slot
  grid : Nat × Nat
  block : Nat × Nat
deriving DecidableEq

structure MetalState where
  cache : List ((Nat × Nat × Nat) × Pipelines)
  launchLog : List MetalLaunch
deriving DecidableEq

/-- The hot-reload configuration: the parsed contents of the entry point's
shader file if the read succeeded, plus the file system and the
temporary root path used by `expand_includes_runtime`. -/
structure HotCfg where
  fs : FS
  root : String
  readResult : Option (List Line)

/-- The source actually compiled: under hot reload, a successfully
re-read and re-flattened file; on any read or include-expansion failure,
the embedded source. -/
def select_source (hot : Option HotCfg) (embedded : String) : String :=
  match hot with
  | none => embedded
  | some h =>
    match h.readResult with
    | none => embedded
    | some src =>
      match expand_includes_runtime h.fs h.root src with
      | .ok expanded => expanded
      | .error _ => embedded

namespace Metal

/-- Metal `get_pso_pair`: cache lookup, source selection, f32 library,
f16 library (with the `USE_HALF_PRECISION` definition set), the two
function objects, the two pipeline-state objects; the `Pipelines` entry is
inserted only after all of them succeeded. -/
def get_pso_pair (o : MetalOracle) (hot : Option HotCfg) (st : MetalState)
    (device : Nat) (shader_src fname : String) :
    Except String (Nat × Nat) × MetalState :=
  match assoc st.cache (device, o.hashStr shader_src, o.hashStr fname) with
  | some p => (.ok (p.pso_full, p.pso_half), st)
  | none =>
    let raw_src := select_source hot shader_src
    match o.newLibrary false raw_src with
    | none => (.error "library f32 compile failed", st)
    | some lib_f32 =>
      match o.newLibrary true raw_src with
      | none => (.error "library f16 compile failed", st)
      | some lib_f16 =>
        match o.newFunction lib_f32 fname, o.newFunction lib_f16 fname with
        | some func_f32, some func_f16 =>
          (match o.newPipeline func_f32, o.newPipeline func_f16 with
            | some pso_f32, some pso_f16 =>
              (.ok (pso_f32, pso_f16),
               { st with cache := ((device, o.hashStr shader_src, o.hashStr fname),
                  ⟨lib_f32, pso_f32, pso_f16⟩) :: st.cache })
            | _, _ => (.error "pipeline failed", st))
        | _, _ => (.error "function not found", st)

/-- Metal `run` (src/gpu/backends/metal/mod.rs lines 102-244): validate the
device/queue and data-buffer handles, obtain the pipeline pair, select the
precision variant, create the two transient argument buffers, the command
buffer and encoder, bind the five argument slots in fixed order, compute
thread-group geometry from the pipeline-reported shape, and submit.
GPU/CPU timing does not affect the result and is not modelled. -/
def run (o : MetalOracle) (hot : Option HotCfg) (st : MetalState)
    (config : Configuration) (user_params : Nat) (shader_src entry : String) :
    Except String Unit × MetalState :=
  if config.device_handle = 0 ∨ config.command_queue_handle = 0 then
    (.error "Invalid device or command queue handle", st)
  else if config.outgoing_data = 0 ∨ config.incoming_data = 0 ∨ config.dest_data = 0 then
    (.error "null buffers", st)
  else
    match get_pso_pair o hot st config.device_handle shader_src entry with
    | (.error e, st1) => (.error e, st1)
    | (.ok (pso_f32, pso_f16), st1) =>
      let pipeline := if config.is16f then pso_f16 else pso_f32
      if pipeline = 0 then (.error "Failed to create Metal compute pipeline state", st1)
      else if o.paramsBufOk = false then (.error "Failed to create Metal params buffer", st1)
      else if o.userBufOk = false then (.error "Failed to create Metal user params buffer", st1)
      else if o.cmdBufOk = false then (.error "Failed to create Metal command buffer", st1)
      else if o.encoderOk = false then (.error "Failed to create Metal command encoder", st1)
      else
        (.ok (), { st1 with launchLog := st1.launchLog ++
          [⟨pipeline,
            [.buf config.outgoing_data, .buf config.incoming_data, .buf config.dest_data,
             .params (mkTransitionParams config), .user user_params],
            metalGrid (o.tew pipeline) (o.maxTotal pipeline) config.width config.height,
            metalBlock (o.tew pipeline) (o.maxTotal pipeline)⟩] })

end Metal

/-- `Except.isOk` as used below for cache-stability statements. -/
def isOkE {ε α : Type} : Except ε α → Bool
  | .ok _ => true
  | .error _ => false

/-! ## Concrete capability instances and configurations used as test vectors -/

/-- An all-succeeding CUDA driver: PTX blobs, modules and functions are
derived injectively (for short sources) from the compiled source length. -/
def cudaOracleA : CudaOracle :=
  { capability := fun _ => some (8, 9)
    nvrtcWithArch := fun _ src => some (src.length + 1)
    nvrtcNoArch := fun src => some (src.length + 1)
    moduleLoadData := fun ptx => some (ptx * 100)
    moduleGetFunction := fun m _ => some (m + 7)
    ctxSetCurrent := fun _ => true
    launchOk := true }

/-- NVRTC rejects the source with the architecture hint but accepts it
without. -/
def cudaOracleFailHints : CudaOracle :=
  { capability := fun _ => some (8, 9)
    nvrtcWithArch := fun _ _ => none
    nvrtcNoArch := fun src => some (src.length + 40)
    moduleLoadData := fun ptx => some (ptx + 1)
    moduleGetFunction := fun m _ => some (m + 1)
    ctxSetCurrent := fun _ => true
    launchOk := true }

/-- NVRTC rejects the source both with and without the hint. -/
def cudaOracleFailAll : CudaOracle :=
  { capability := fun _ => some (8, 9)
    nvrtcWithArch := fun _ _ => none
    nvrtcNoArch := fun _ => none
    moduleLoadData := fun ptx => some (ptx + 1)
    moduleGetFunction := fun m _ => some (m + 1)
    ctxSetCurrent := fun _ => true
    launchOk := true }

/-- An all-succeeding Metal device reporting threadExecutionWidth 32 and
256 max threads per thread-group. -/
def metalOracleA : MetalOracle :=
  { hashStr := fun s => s.length
    newLibrary := fun useHalf src => some (src.length * 2 + (if useHalf then 1 else 0) + 1)
    newFunction := fun lib _ => some (lib + 10)
    newPipeline := fun f => some (f + 100)
    tew := fun _ => 32
    maxTotal := fun _ => 256
    paramsBufOk := true
    userBufOk := true
    cmdBufOk := true
    encoderOk := true }

/-- A Metal device whose shader compiler rejects every source. -/
def metalOracleFailLib : MetalOracle :=
  { hashStr := fun s => s.length
    newLibrary := fun _ _ => none
    newFunction := fun lib _ => some (lib + 10)
    newPipeline := fun f => some (f + 100)
    tew := fun _ => 32
    maxTotal := fun _ => 256
    paramsBufOk := true
    userBufOk := true
    cmdBufOk := true
    encoderOk := true }

/-- A configuration whose `device_handle` is null but whose other handles
are all valid. -/
def configNullDevice : Configuration :=
  { device_handle := 0
    context_handle := some 1
    command_queue_handle := 2
    outgoing_data := 3
    incoming_data := 4
    dest_data := 5
    outgoing_pitch_px := 7
    incoming_pitch_px := 7
    dest_pitch_px := 7
    width := 32
    height := 32
    is16f := false
    progress := 55 }

/-- A configuration with a null command queue and all other handles valid. -/
def configNullQueue : Configuration :=
  { device_handle := 1
    context_handle := some 1
    command_queue_handle := 0
    outgoing_data := 3
    incoming_data := 4
    dest_data := 5
    outgoing_pitch_px := 7
    incoming_pitch_px := 7
    dest_pitch_px := 7
    width := 32
    height := 32
    is16f := false
    progress := 55 }

/-- A fully valid configuration (`is16f = false`). -/
def configOk : Configuration :=
  { device_handle := 1
    context_handle := some 1
    command_queue_handle := 2
    outgoing_data := 3
    incoming_data := 4
    dest_data := 5
    outgoing_pitch_px := 1000
    incoming_pitch_px := 1000
    dest_pitch_px := 1000
    width := 1000
    height := 1
    is16f := false
    progress := 77 }

/-- A CUDA kernel-cache state already holding a pair for context 1 and
entry point "e". -/
def cudaStateCached : CudaState := ⟨[((1, "e"), ⟨10, 11, 12, 13⟩)], 0, 0, []⟩

def cudaStateEmpty : CudaState := ⟨[], 0, 0, []⟩

def metalStateEmpty : MetalState := ⟨[], []⟩

/-- A one-file file system in which "a" includes itself. -/
def fsCycle : FS := [("a", [Line.inc "a"])]

/-- A root source consisting of the single directive including "a". -/
def srcCycle : List Line := [Line.inc "a"]

/-! ## Basic lemmas -/

theorem assoc_cons_self {α β : Type} [DecidableEq α] (k : α) (v : β) (t : List (α × β)) :
    assoc ((k, v) :: t) k = some v := by
  simp [assoc]

theorem divCeil_eq_ceilDiv (a b : Nat) (hb : 0 < b) : divCeil a b = a ⌈/⌉ b := by
  obtain ⟨q, r, hr, rfl⟩ : ∃ q r, r < b ∧ a = b * q + r :=
    ⟨a / b, a % b, Nat.mod_lt _ hb, (Nat.div_add_mod a b).symm⟩
  rw [Nat.ceilDiv_eq_add_pred_div, divCeil, Nat.mul_add_div hb, Nat.mul_add_mod,
    Nat.div_eq_of_lt hr, Nat.mod_eq_of_lt hr]
  rcases Nat.eq_zero_or_pos r with hr0 | hr0
  · subst hr0
    have h1 : b * q + 0 + b - 1 = b * q + (b - 1) := by omega
    rw [h1, Nat.mul_add_div hb, Nat.div_eq_of_lt (by omega)]
    simp
  · have h1 : b * q + r + b - 1 = b * (q + 1) + (r - 1) := by
      rw [Nat.mul_add, Nat.mul_one]; omega
    rw [h1, Nat.mul_add_div hb, Nat.div_eq_of_lt (by omega)]
    have hne : r ≠ 0 := by omega
    simp [hne]

/-! ## Lemmas about the include-expansion walker -/

/-- A successful expansion expanded every include of the line list: each
directive resolved, was not on the visited stack, and its own expansion
(with it pushed onto the stack) succeeded. -/
theorem expandL_ok_incs (fs : FS) (stack : List String) (lines : List Line) :
    ∀ s q, expandL fs stack lines = .ok s → q ∈ incs lines →
      ∃ lq, assoc fs q = some lq ∧ q ∉ stack ∧
        ∃ s2, expandL fs (q :: stack) lq = .ok s2 := by
  induction lines with
  | nil =>
    intro s q _ hq
    simp [incs] at hq
  | cons l rest ih =>
    intro s q hok hq
    cases l with
    | text t =>
      simp only [expandL] at hok
      simp only [incs] at hq
      split at hok
      · exact absurd hok (by simp)
      · next r hrest => exact ih r q hrest hq
    | inc p =>
      simp only [expandL] at hok
      simp only [incs, List.mem_cons] at hq
      split at hok
      · exact absurd hok (by simp)
      · next lp hfind =>
        split at hok
        · exact absurd hok (by simp)
        · next hmem =>
          split at hok
          · exact absurd hok (by simp)
          · next chunk hchunk =>
            split at hok
            · exact absurd hok (by simp)
            · next r hrest =>
              rcases hq with rfl | hq
              · exact ⟨lp, hfind, hmem, chunk, hchunk⟩
              · exact ih r q hrest hq

/-- A successful expansion never reaches back into the visited stack:
no path already on the stack is reachable in the include graph from the
directives of the remaining lines. -/
theorem expandL_ok_not_reach_stack (fs : FS) (stack : List String) (lines : List Line) :
    ∀ s, expandL fs stack lines = .ok s →
      ∀ c ∈ stack, ¬ ReachFromLines fs lines c := by
  induction stack, lines using expandL.induct fs with
  | case1 stack =>
    intro s _ c _ hreach
    obtain ⟨m, hm, _⟩ := hreach
    simp [incs] at hm
  | case2 stack t rest e herr =>
    intro s hok
    simp only [expandL, herr] at hok
    exact absurd hok (by simp)
  | case3 stack t rest r hrest ih =>
    intro s hok c hc hreach
    obtain ⟨m, hm, hrtg⟩ := hreach
    simp only [incs] at hm
    exact ih r hrest c hc ⟨m, hm, hrtg⟩
  | case4 stack p rest hfind =>
    intro s hok
    simp only [expandL] at hok
    repeat' split at hok
    all_goals simp_all
  | case5 stack p rest lp hfind hmem =>
    intro s hok
    simp only [expandL] at hok
    repeat' split at hok
    all_goals simp_all
  | case6 stack p rest lp hfind hmem e herr =>
    intro s hok
    simp only [expandL] at hok
    repeat' split at hok
    all_goals simp_all
  | case7 stack p rest lp hfind hmem r1 hok1 e herr ih1 ih2 =>
    intro s hok
    simp only [expandL] at hok
    repeat' split at hok
    all_goals simp_all
  | case8 stack p rest lp hfind hmem r1 hok1 r2 hok2 ih1 ih2 =>
    intro s hok c hc hreach
    obtain ⟨m, hm, hrtg⟩ := hreach
    simp only [incs, List.mem_cons] at hm
    rcases hm with hm1 | hm
    · rw [hm1] at hrtg
      rcases Relation.ReflTransGen.cases_head hrtg with hm2 | ⟨z, hz, hrtg2⟩
      · rw [← hm2] at hc
        exact hmem hc
      · have hz2 : z ∈ incs lp := by
          unfold stepInc fileIncs at hz
          rw [hfind] at hz
          exact hz
        exact ih1 r1 hok1 c (List.mem_cons_of_mem p hc) ⟨z, hz2, hrtg2⟩
    · exact ih2 r2 hok2 c hc ⟨m, hm, hrtg⟩

/-- Successful expansion propagates along include edges: if the file at `x`
expanded successfully (with `x` on the stack) and `y` is reachable from
`x`, then the file at `y` also expanded successfully (with `y` on the
stack). -/
theorem okAt_of_reach (fs : FS) {x y : String}
    (hr : Relation.ReflTransGen (stepInc fs) x y) : OkAt fs x → OkAt fs y := by
  induction hr using Relation.ReflTransGen.head_induction_on with
  | refl => exact id
  | @head a c hstep hrtg ih =>
    intro hx
    obtain ⟨S, la, s, hla, hok⟩ := hx
    have hc : c ∈ incs la := by
      unfold stepInc fileIncs at hstep
      rw [hla] at hstep
      exact hstep
    obtain ⟨lc, hlc, _, s2, hok2⟩ := expandL_ok_incs fs (a :: S) la s c hok hc
    exact ih ⟨a :: S, lc, s2, hlc, hok2⟩

/-- If the include graph below the source has a reachable cycle, the
expansion cannot succeed. -/
theorem expand_error_of_cycle (fs : FS) (root : String) (src : List Line)
    (h : HasReachableCycle fs src) :
    ∃ e, expand_includes_runtime fs root src = .error e := by
  cases hres : expand_includes_runtime fs root src with
  | error e => exact ⟨e, rfl⟩
  | ok s =>
    exfalso
    obtain ⟨c, ⟨m, hm, hrtg⟩, hcyc⟩ := h
    have hroot : expandL fs [root] src = .ok s := hres
    obtain ⟨lm, hlm, _, s2, hokm⟩ := expandL_ok_incs fs [root] src s m hroot hm
    have hOkc : OkAt fs c := okAt_of_reach fs hrtg ⟨[root], lm, s2, hlm, hokm⟩
    obtain ⟨S, lc, s3, hlc, hokc⟩ := hOkc
    obtain ⟨d, hstep, hdc⟩ := Relation.TransGen.head'_iff.mp hcyc
    have hd : d ∈ incs lc := by
      unfold stepInc fileIncs at hstep
      rw [hlc] at hstep
      exact hstep
    exact expandL_ok_not_reach_stack fs (c :: S) lc s3 hokc c (List.mem_cons_self c S)
      ⟨d, hd, hdc⟩

/-! ## Claim theorems -/

theorem compute_row_bytes_of_lt (w b : Nat) (hvalid : w * b < U32) :
    compute_row_bytes w b = w * b := by
  rw [compute_row_bytes, min_eq_left]
  omega

/-- Claim C1: for every valid buffer key (the product `width *
bytes_per_pixel` representable in u32, which is what `row_bytes = w * b`
presupposes), two consecutive `get_or_create` calls with identical
arguments return views over the same underlying native handle, and both
views satisfy `row_bytes = width * bytes_per_pixel` and
`pitch_px = width`. -/
theorem get_or_create_consecutive_same_handle (alloc : Nat → Nat) (st : BufState)
    (d w h b t : Nat) (hvalid : w * b < U32) :
    ((Buffer.get_or_create alloc (Buffer.get_or_create alloc st d w h b t).2
        d w h b t).1.buf = (Buffer.get_or_create alloc st d w h b t).1.buf)
    ∧ (Buffer.get_or_create alloc st d w h b t).1.row_bytes = w * b
    ∧ (Buffer.get_or_create alloc st d w h b t).1.pitch_px = w
    ∧ (Buffer.get_or_create alloc (Buffer.get_or_create alloc st d w h b t).2
        d w h b t).1.row_bytes = w * b
    ∧ (Buffer.get_or_create alloc (Buffer.get_or_create alloc st d w h b t).2
        d w h b t).1.pitch_px = w := by
  have hrb := compute_row_bytes_of_lt w b hvalid
  unfold Buffer.get_or_create
  cases hc : assoc st.cache ⟨d, w, h, b, t⟩ with
  | some existing => simp [hc, hrb]
  | none => simp [hc, hrb, assoc_cons_self]

theorem get_or_create_consecutive_same_handle_witness :
    4 * 16 < U32
    ∧ (((Buffer.get_or_create (fun n => n + 100)
          (Buffer.get_or_create (fun n => n + 100) ⟨[], 0⟩ 1 4 3 16 0).2
          1 4 3 16 0).1.buf
        = (Buffer.get_or_create (fun n => n + 100) ⟨[], 0⟩ 1 4 3 16 0).1.buf)
      ∧ (Buffer.get_or_create (fun n => n + 100) ⟨[], 0⟩ 1 4 3 16 0).1.row_bytes = 4 * 16
      ∧ (Buffer.get_or_create (fun n => n + 100) ⟨[], 0⟩ 1 4 3 16 0).1.pitch_px = 4
      ∧ (Buffer.get_or_create (fun n => n + 100)
          (Buffer.get_or_create (fun n => n + 100) ⟨[], 0⟩ 1 4 3 16 0).2
          1 4 3 16 0).1.row_bytes = 4 * 16
      ∧ (Buffer.get_or_create (fun n => n + 100)
          (Buffer.get_or_create (fun n => n + 100) ⟨[], 0⟩ 1 4 3 16 0).2
          1 4 3 16 0).1.pitch_px = 4) :=
  ⟨by norm_num [U32],
   get_or_create_consecutive_same_handle (fun n => n + 100) ⟨[], 0⟩ 1 4 3 16 0
     (by norm_num [U32])⟩

/-- Claim C9 (code evaluation): the Metal buffer `cleanup` releases exactly
the non-null cached handles and empties the map, so a subsequent
`get_or_create` — with any key — misses and performs exactly one fresh
native allocation whose handle is the allocator's next; the CUDA backend's
buffer `cleanup`, however, is an unimplemented `todo!()` that panics and
never produces the emptied cache the claim describes. -/
theorem cleanup_empties_then_one_fresh_allocation (alloc : Nat → Nat) (st : BufState)
    (d w h b t : Nat) :
    (Buffer.cleanup st).2.cache = []
    ∧ (Buffer.cleanup st).1
        = (st.cache.map Prod.snd).filter (fun hdl => decide (hdl ≠ 0))
    ∧ (Buffer.get_or_create alloc (Buffer.cleanup st).2 d w h b t).2.allocs
        = (Buffer.cleanup st).2.allocs + 1
    ∧ (Buffer.get_or_create alloc (Buffer.cleanup st).2 d w h b t).1.buf = alloc st.allocs
    ∧ assoc (Buffer.get_or_create alloc (Buffer.cleanup st).2 d w h b t).2.cache
        ⟨d, w, h, b, t⟩ = some (alloc st.allocs)
    ∧ CudaBuffer.cleanup = none := by
  refine ⟨rfl, rfl, ?_, ?_, ?_, rfl⟩ <;>
    simp [Buffer.cleanup, Buffer.get_or_create, assoc]

/-- Claim C10: on a cache miss in the pointer-based path, `get_or_create`
inserts and returns whatever handle the native allocator produced, with no
validation and no failure path; in particular a null (0) handle is cached
under the key and is returned both by this call and by every subsequent
call with the same key. -/
theorem get_or_create_caches_null_handle (alloc : Nat → Nat) (st : BufState)
    (d w h b t : Nat) (hmiss : assoc st.cache ⟨d, w, h, b, t⟩ = none)
    (hnull : alloc st.allocs = 0) :
    (Buffer.get_or_create alloc st d w h b t).1.buf = 0
    ∧ assoc (Buffer.get_or_create alloc st d w h b t).2.cache ⟨d, w, h, b, t⟩ = some 0
    ∧ (Buffer.get_or_create alloc (Buffer.get_or_create alloc st d w h b t).2
        d w h b t).1.buf = 0 := by
  unfold Buffer.get_or_create
  simp [hmiss, hnull, assoc_cons_self]

theorem get_or_create_caches_null_handle_witness :
    assoc (⟨[], 0⟩ : BufState).cache ⟨1, 4, 3, 16, 0⟩ = none
    ∧ (fun _ : Nat => 0) (⟨[], 0⟩ : BufState).allocs = 0
    ∧ ((Buffer.get_or_create (fun _ => 0) ⟨[], 0⟩ 1 4 3 16 0).1.buf = 0
      ∧ assoc (Buffer.get_or_create (fun _ => 0) ⟨[], 0⟩ 1 4 3 16 0).2.cache
          ⟨1, 4, 3, 16, 0⟩ = some 0
      ∧ (Buffer.get_or_create (fun _ => 0)
          (Buffer.get_or_create (fun _ => 0) ⟨[], 0⟩ 1 4 3 16 0).2 1 4 3 16 0).1.buf = 0) :=
  ⟨rfl, rfl, get_or_create_caches_null_handle (fun _ => 0) ⟨[], 0⟩ 1 4 3 16 0 rfl rfl⟩

/-- Claim C6: both backends compute the launch grid as
`ceil(width / block_width) times ceil(height / block_height)`; CUDA uses
the fixed 16 by 16 block, Metal the pipeline-reported shape; with
`width = 1000, height = 1` the default 16 by 16 block gives grid (63, 1),
and a reported shape of 32 by 8 (threadExecutionWidth 32, 256 max threads
per group) gives grid (32, 1). -/
theorem launch_geometry_is_ceil_div (w h tew mt : Nat) :
    cudaBlock = (16, 16)
    ∧ cudaGrid w h = (w ⌈/⌉ 16, h ⌈/⌉ 16)
    ∧ metalGrid tew mt w h
        = (w ⌈/⌉ (metalBlock tew mt).1, h ⌈/⌉ (metalBlock tew mt).2)
    ∧ cudaGrid 1000 1 = (63, 1)
    ∧ metalBlock 32 256 = (32, 8)
    ∧ metalGrid 32 256 1000 1 = (32, 1) := by
  have h1 : 0 < (metalBlock tew mt).1 := by
    simp [metalBlock]
  have h2 : 0 < (metalBlock tew mt).2 := by
    simp [metalBlock]
  refine ⟨rfl, ?_, ?_, by decide, by decide, by decide⟩
  · rw [cudaGrid, divCeil_eq_ceilDiv w 16 (by norm_num), divCeil_eq_ceilDiv h 16 (by norm_num)]
  · rw [metalGrid, divCeil_eq_ceilDiv w _ h1, divCeil_eq_ceilDiv h _ h2]

/-- Claim C7: `compile_ptx` first queries the device capability and tries
NVRTC with the derived architecture hint; if that compilation fails it
retries exactly once without the hint (the invocation count is 2), and
only if the retry also fails does it return the failure. -/
theorem compile_ptx_retries_once_without_hints (o : CudaOracle) (src fname : String)
    (dev major minor : Nat) (hdev : dev ≠ 0)
    (hcap : o.capability dev = some (major, minor)) :
    (∀ ptx, o.nvrtcWithArch (archString major minor) src = some ptx →
      compile_ptx o src fname dev = (.ok ptx, 1))
    ∧ (o.nvrtcWithArch (archString major minor) src = none →
      ∀ ptx, o.nvrtcNoArch src = some ptx →
        compile_ptx o src fname dev = (.ok ptx, 2))
    ∧ (o.nvrtcWithArch (archString major minor) src = none →
      o.nvrtcNoArch src = none →
        compile_ptx o src fname dev = (.error "NVRTC compile error", 2)) := by
  refine ⟨fun ptx hhint => ?_, fun hhint ptx hretry => ?_, fun hhint hretry => ?_⟩
  · simp [compile_ptx, hdev, hcap, hhint]
  · simp [compile_ptx, hdev, hcap, hhint, hretry]
  · simp [compile_ptx, hdev, hcap, hhint, hretry]

theorem compile_ptx_retries_once_without_hints_witness :
    compile_ptx cudaOracleFailHints "K" "e" 3 = (.ok 41, 2) :=
  (compile_ptx_retries_once_without_hints cudaOracleFailHints "K" "e" 3 8 9
    (by decide) rfl).2.1 rfl 41 rfl

/-- Claim C2 (code evaluation): the CUDA kernel cache keys on
`(context, entry point)` only. After a pair is compiled for source "X" and
entry "e", a request for the same entry with the different source "YY"
returns the cached pair compiled from "X" without any new NVRTC
invocation — even though a genuine compilation of "YY" (the same request
against an empty cache) yields a different pair. -/
theorem cuda_kernel_cache_ignores_source_text :
    (Cuda.get_pso_pair cudaOracleA
        (Cuda.get_pso_pair cudaOracleA cudaStateEmpty 1 "X" "e" 3).2 1 "YY" "e" 3).1
      = (Cuda.get_pso_pair cudaOracleA cudaStateEmpty 1 "X" "e" 3).1
    ∧ (Cuda.get_pso_pair cudaOracleA
        (Cuda.get_pso_pair cudaOracleA cudaStateEmpty 1 "X" "e" 3).2 1 "YY" "e" 3).2.nvrtc
      = (Cuda.get_pso_pair cudaOracleA cudaStateEmpty 1 "X" "e" 3).2.nvrtc
    ∧ (Cuda.get_pso_pair cudaOracleA cudaStateEmpty 1 "X" "e" 3).2.nvrtc = 2
    ∧ ((Cuda.get_pso_pair cudaOracleA cudaStateEmpty 1 "YY" "e" 3).1.toOption.map Prod.fst)
      ≠ ((Cuda.get_pso_pair cudaOracleA cudaStateEmpty 1 "X" "e" 3).1.toOption.map Prod.fst) := by
  refine ⟨rfl, rfl, rfl, by decide⟩

/-- Claim C3 (amended): each backend validates its queue handle, its three
data-buffer handles, and its primary handle — the device for Metal, the
context for CUDA — before any cache lookup, compilation, allocation or
submission: when any of those is null the dispatch returns a descriptive
error with the cache/instrumentation state completely unchanged. (The CUDA
backend does not pre-validate `device_handle`; see the counterexample.) -/
theorem dispatch_null_handles_fail_before_work
    (o : CudaOracle) (om : MetalOracle) (hot : Option HotCfg)
    (stc : CudaState) (stm : MetalState) (config : Configuration)
    (up : Nat) (src entry : String) :
    ((config.device_handle = 0 ∨ config.command_queue_handle = 0
        ∨ config.outgoing_data = 0 ∨ config.incoming_data = 0 ∨ config.dest_data = 0) →
      ∃ e, Metal.run om hot stm config up src entry = (.error e, stm))
    ∧ ((config.context_handle = none ∨ config.command_queue_handle = 0
        ∨ config.outgoing_data = 0 ∨ config.incoming_data = 0 ∨ config.dest_data = 0) →
      ∃ e, Cuda.run o stc config up src entry = (.error e, stc)) := by
  constructor
  · intro hnull
    unfold Metal.run
    by_cases h1 : config.device_handle = 0 ∨ config.command_queue_handle = 0
    · exact ⟨_, by rw [if_pos h1]⟩
    · have h2 : config.outgoing_data = 0 ∨ config.incoming_data = 0
          ∨ config.dest_data = 0 := by tauto
      exact ⟨_, by rw [if_neg h1, if_pos h2]⟩
  · intro hnull
    unfold Cuda.run
    by_cases h1 : config.context_handle = none ∨ config.command_queue_handle = 0
    · exact ⟨_, by rw [if_pos h1]⟩
    · have h2 : config.outgoing_data = 0 ∨ config.incoming_data = 0
          ∨ config.dest_data = 0 := by tauto
      exact ⟨_, by rw [if_neg h1, if_pos h2]⟩

theorem dispatch_null_handles_fail_before_work_witness :
    (∃ e, Metal.run metalOracleA none metalStateEmpty configNullQueue 9 "S" "e"
        = (.error e, metalStateEmpty))
    ∧ (∃ e, Cuda.run cudaOracleA cudaStateEmpty configNullQueue 9 "S" "e"
        = (.error e, cudaStateEmpty)) :=
  ⟨(dispatch_null_handles_fail_before_work cudaOracleA metalOracleA none
      cudaStateEmpty metalStateEmpty configNullQueue 9 "S" "e").1 (Or.inr (Or.inl rfl)),
   (dispatch_null_handles_fail_before_work cudaOracleA metalOracleA none
      cudaStateEmpty metalStateEmpty configNullQueue 9 "S" "e").2 (Or.inr (Or.inl rfl))⟩

theorem cuda_gpp_error_cache_unchanged (o : CudaOracle) (st : CudaState)
    (ctx device : Nat) (src fname : String) :
    isOkE (Cuda.get_pso_pair o st ctx src fname device).1 = false →
    (Cuda.get_pso_pair o st ctx src fname device).2.cache = st.cache := by
  unfold Cuda.get_pso_pair
  repeat' split
  all_goals simp [isOkE]

theorem cuda_gpp_error_of_f32_fail (o : CudaOracle) (st : CudaState)
    (ctx device : Nat) (src fname : String)
    (hmiss : assoc st.cache (ctx, fname) = none) (hctx : ctx ≠ 0)
    (hset : o.ctxSetCurrent ctx = true)
    (hfail : isOkE (compile_ptx o src fname device).1 = false) :
    isOkE (Cuda.get_pso_pair o st ctx src fname device).1 = false := by
  rcases hc : compile_ptx o src fname device with ⟨cres, n1⟩
  cases cres with
  | ok ptx =>
    rw [hc] at hfail
    simp [isOkE] at hfail
  | error e =>
    unfold Cuda.get_pso_pair
    simp [hctx, hmiss, hset, hc, isOkE]

theorem cuda_gpp_error_of_f16_fail (o : CudaOracle) (st : CudaState)
    (ctx device : Nat) (src fname : String)
    (hmiss : assoc st.cache (ctx, fname) = none) (hctx : ctx ≠ 0)
    (hset : o.ctxSetCurrent ctx = true)
    (hfail : isOkE (compile_ptx o (halfSrcHeader ++ src) fname device).1 = false) :
    isOkE (Cuda.get_pso_pair o st ctx src fname device).1 = false := by
  rcases hc16 : compile_ptx o (halfSrcHeader ++ src) fname device with ⟨cres16, n2⟩
  cases cres16 with
  | ok ptx =>
    rw [hc16] at hfail
    simp [isOkE] at hfail
  | error e =>
    rcases hc32 : compile_ptx o src fname device with ⟨cres32, n1⟩
    cases cres32 with
    | error e1 =>
      unfold Cuda.get_pso_pair
      simp [hctx, hmiss, hset, hc32, isOkE]
    | ok ptx1 =>
      unfold Cuda.get_pso_pair
      simp [hctx, hmiss, hset, hc32, hc16, isOkE]

theorem metal_gpp_error_cache_unchanged (om : MetalOracle) (hot : Option HotCfg)
    (stm : MetalState) (device : Nat) (src fname : String) :
    isOkE (Metal.get_pso_pair om hot stm device src fname).1 = false →
    (Metal.get_pso_pair om hot stm device src fname).2.cache = stm.cache := by
  unfold Metal.get_pso_pair
  cases hl : assoc stm.cache (device, om.hashStr src, om.hashStr fname) with
  | some p => simp [hl, isOkE]
  | none =>
    cases h32 : om.newLibrary false (select_source hot src) with
    | none => simp [hl, h32, isOkE]
    | some lib32 =>
      cases h16 : om.newLibrary true (select_source hot src) with
      | none => simp [hl, h32, h16, isOkE]
      | some lib16 =>
        cases hf32 : om.newFunction lib32 fname with
        | none => simp [hl, h32, h16, hf32, isOkE]
        | some f32 =>
          cases hf16 : om.newFunction lib16 fname with
          | none => simp [hl, h32, h16, hf32, hf16, isOkE]
          | some f16 =>
            cases hp32 : om.newPipeline f32 with
            | none => simp [hl, h32, h16, hf32, hf16, hp32, isOkE]
            | some p32 =>
              cases hp16 : om.newPipeline f16 with
              | none => simp [hl, h32, h16, hf32, hf16, hp32, hp16, isOkE]
              | some p16 => simp [hl, h32, h16, hf32, hf16, hp32, hp16, isOkE]

theorem metal_gpp_error_of_lib_fail (om : MetalOracle) (hot : Option HotCfg)
    (stm : MetalState) (device : Nat) (src fname : String)
    (hmiss : assoc stm.cache (device, om.hashStr src, om.hashStr fname) = none)
    (hfail : om.newLibrary false (select_source hot src) = none
      ∨ om.newLibrary true (select_source hot src) = none) :
    isOkE (Metal.get_pso_pair om hot stm device src fname).1 = false := by
  unfold Metal.get_pso_pair
  rcases h32 : om.newLibrary false (select_source hot src) with _ | lib32
  · simp [hmiss, h32, isOkE]
  · rcases hfail with hf | hf
    · rw [h32] at hf
      exact absurd hf (by simp)
    · simp [hmiss, h32, hf, isOkE]

/-- Claim C4: `get_pso_pair` compiles both precision variants — full
precision from the source as given, half precision with the
`USE_HALF_PRECISION` macro enabled (textually prepended on CUDA, set as a
preprocessor definition on Metal) — and fails as a whole if either variant
fails; on every failing outcome the kernel cache map is left exactly as it
was, the new entry being inserted only after both variants (and their
module/function/pipeline objects) succeeded. -/
theorem get_pso_pair_all_or_nothing
    (o : CudaOracle) (om : MetalOracle) (hot : Option HotCfg)
    (st : CudaState) (stm : MetalState) (ctx device : Nat) (src fname : String) :
    (isOkE (Cuda.get_pso_pair o st ctx src fname device).1 = false →
      (Cuda.get_pso_pair o st ctx src fname device).2.cache = st.cache)
    ∧ (assoc st.cache (ctx, fname) = none → ctx ≠ 0 → o.ctxSetCurrent ctx = true →
      isOkE (compile_ptx o src fname device).1 = false →
      isOkE (Cuda.get_pso_pair o st ctx src fname device).1 = false)
    ∧ (assoc st.cache (ctx, fname) = none → ctx ≠ 0 → o.ctxSetCurrent ctx = true →
      isOkE (compile_ptx o (halfSrcHeader ++ src) fname device).1 = false →
      isOkE (Cuda.get_pso_pair o st ctx src fname device).1 = false)
    ∧ (isOkE (Metal.get_pso_pair om hot stm device src fname).1 = false →
      (Metal.get_pso_pair om hot stm device src fname).2.cache = stm.cache)
    ∧ (assoc stm.cache (device, om.hashStr src, om.hashStr fname) = none →
      (om.newLibrary false (select_source hot src) = none
        ∨ om.newLibrary true (select_source hot src) = none) →
      isOkE (Metal.get_pso_pair om hot stm device src fname).1 = false) :=
  ⟨cuda_gpp_error_cache_unchanged o st ctx device src fname,
   fun hmiss hctx hset hfail =>
     cuda_gpp_error_of_f32_fail o st ctx device src fname hmiss hctx hset hfail,
   fun hmiss hctx hset hfail =>
     cuda_gpp_error_of_f16_fail o st ctx device src fname hmiss hctx hset hfail,
   metal_gpp_error_cache_unchanged om hot stm device src fname,
   fun hmiss hfail =>
     metal_gpp_error_of_lib_fail om hot stm device src fname hmiss hfail⟩

theorem get_pso_pair_all_or_nothing_witness :
    isOkE (Cuda.get_pso_pair cudaOracleFailAll cudaStateEmpty 1 "X" "e" 3).1 = false
    ∧ (Cuda.get_pso_pair cudaOracleFailAll cudaStateEmpty 1 "X" "e" 3).2.cache
        = cudaStateEmpty.cache
    ∧ isOkE (Metal.get_pso_pair metalOracleFailLib none metalStateEmpty 1 "X" "e").1 = false
    ∧ (Metal.get_pso_pair metalOracleFailLib none metalStateEmpty 1 "X" "e").2.cache
        = metalStateEmpty.cache := by
  have h := get_pso_pair_all_or_nothing cudaOracleFailAll metalOracleFailLib none
    cudaStateEmpty metalStateEmpty 1 3 "X" "e"
  have hcuda : isOkE (Cuda.get_pso_pair cudaOracleFailAll cudaStateEmpty 1 "X" "e" 3).1
      = false :=
    h.2.1 rfl (by decide) rfl rfl
  have hmetal : isOkE (Metal.get_pso_pair metalOracleFailLib none metalStateEmpty
      1 "X" "e").1 = false :=
    h.2.2.2.2 rfl (Or.inl rfl)
  exact ⟨hcuda, h.1 hcuda, hmetal, h.2.2.2.1 hmetal⟩

theorem cuda_run_ok_shape (o : CudaOracle) (stc : CudaState) (config : Configuration)
    (up : Nat) (src entry : String) :
    ∀ st2, Cuda.run o stc config up src entry = (.ok (), st2) →
      ∃ pr stp, Cuda.get_pso_pair o stc (config.context_handle.getD 0) src entry
          config.device_handle = (.ok pr, stp)
        ∧ st2.launchLog = stp.launchLog ++
            [⟨if config.is16f then pr.2 else pr.1,
              cudaGrid config.width config.height, (16, 16),
              [.buf config.outgoing_data, .buf config.incoming_data,
               .buf config.dest_data, .params (mkTransitionParams config), .user up]⟩] := by
  intro st2 hrun
  unfold Cuda.run at hrun
  split at hrun
  · simp at hrun
  · split at hrun
    · simp at hrun
    · split at hrun
      · simp at hrun
      · next func_f32 func_f16 st1 heq =>
        refine ⟨(func_f32, func_f16), st1, heq, ?_⟩
        unfold Cuda.dispatch at hrun
        dsimp only at hrun ⊢
        generalize (if config.is16f = true then func_f16 else func_f32) = func at hrun ⊢
        repeat' split at hrun
        all_goals injection hrun with h1 h2
        all_goals first
          | exact Except.noConfusion h1
          | rw [← h2]

theorem metal_run_ok_shape (om : MetalOracle) (hot : Option HotCfg) (stm : MetalState)
    (config : Configuration) (up : Nat) (src entry : String) :
    ∀ st2, Metal.run om hot stm config up src entry = (.ok (), st2) →
      ∃ pr stp, Metal.get_pso_pair om hot stm config.device_handle src entry
          = (.ok pr, stp)
        ∧ st2.launchLog = stp.launchLog ++
            [⟨if config.is16f then pr.2 else pr.1,
              [.buf config.outgoing_data, .buf config.incoming_data,
               .buf config.dest_data, .params (mkTransitionParams config), .user up],
              metalGrid (om.tew (if config.is16f then pr.2 else pr.1))
                (om.maxTotal (if config.is16f then pr.2 else pr.1))
                config.width config.height,
              metalBlock (om.tew (if config.is16f then pr.2 else pr.1))
                (om.maxTotal (if config.is16f then pr.2 else pr.1))⟩] := by
  intro st2 hrun
  unfold Metal.run at hrun
  split at hrun
  · simp at hrun
  · split at hrun
    · simp at hrun
    · split at hrun
      · simp at hrun
      · next pso_f32 pso_f16 st1 heq =>
        refine ⟨(pso_f32, pso_f16), st1, heq, ?_⟩
        dsimp only at hrun ⊢
        generalize (if config.is16f = true then pso_f16 else pso_f32) = pip at hrun ⊢
        repeat' split at hrun
        all_goals injection hrun with h1 h2
        all_goals first
          | exact Except.noConfusion h1
          | rw [← h2]

/-- Claim C5: a successful dispatch on either backend submits exactly one
launch binding exactly five argument slots, in the fixed order outgoing
buffer, incoming buffer, destination buffer, transition parameters, user
parameters; the launched kernel is the full-precision member of the cached
pair when `is16f = false` (half-precision member when true); and the
transition-parameters value bound in slot 3 carries `progress` equal to
the configuration's progress, unchanged. -/
theorem dispatch_binds_five_slots_in_order
    (o : CudaOracle) (om : MetalOracle) (hot : Option HotCfg)
    (stc : CudaState) (stm : MetalState) (config : Configuration)
    (up : Nat) (src entry : String) :
    ((mkTransitionParams config).progress = config.progress)
    ∧ (∀ st2, Cuda.run o stc config up src entry = (.ok (), st2) →
      ∃ pr stp, Cuda.get_pso_pair o stc (config.context_handle.getD 0) src entry
          config.device_handle = (.ok pr, stp)
        ∧ st2.launchLog = stp.launchLog ++
            [⟨if config.is16f then pr.2 else pr.1,
              cudaGrid config.width config.height, (16, 16),
              [.buf config.outgoing_data, .buf config.incoming_data,
               .buf config.dest_data, .params (mkTransitionParams config), .user up]⟩])
    ∧ (∀ st2, Metal.run om hot stm config up src entry = (.ok (), st2) →
      ∃ pr stp, Metal.get_pso_pair om hot stm config.device_handle src entry
          = (.ok pr, stp)
        ∧ st2.launchLog = stp.launchLog ++
            [⟨if config.is16f then pr.2 else pr.1,
              [.buf config.outgoing_data, .buf config.incoming_data,
               .buf config.dest_data, .params (mkTransitionParams config), .user up],
              metalGrid (om.tew (if config.is16f then pr.2 else pr.1))
                (om.maxTotal (if config.is16f then pr.2 else pr.1))
                config.width config.height,
              metalBlock (om.tew (if config.is16f then pr.2 else pr.1))
                (om.maxTotal (if config.is16f then pr.2 else pr.1))⟩]) :=
  ⟨rfl, cuda_run_ok_shape o stc config up src entry,
   metal_run_ok_shape om hot stm config up src entry⟩

theorem dispatch_binds_five_slots_in_order_witness :
    (mkTransitionParams configOk).progress = configOk.progress
    ∧ (∃ pr stp, Cuda.get_pso_pair cudaOracleA cudaStateEmpty
          (configOk.context_handle.getD 0) "S" "e" configOk.device_handle = (.ok pr, stp)
        ∧ (Cuda.run cudaOracleA cudaStateEmpty configOk 9 "S" "e").2.launchLog
            = stp.launchLog ++
            [⟨if configOk.is16f then pr.2 else pr.1,
              cudaGrid configOk.width configOk.height, (16, 16),
              [.buf configOk.outgoing_data, .buf configOk.incoming_data,
               .buf configOk.dest_data, .params (mkTransitionParams configOk), .user 9]⟩])
    ∧ (∃ pr stp, Metal.get_pso_pair metalOracleA none metalStateEmpty
          configOk.device_handle "S" "e" = (.ok pr, stp)
        ∧ (Metal.run metalOracleA none metalStateEmpty configOk 9 "S" "e").2.launchLog
            = stp.launchLog ++
            [⟨if configOk.is16f then pr.2 else pr.1,
              [.buf configOk.outgoing_data, .buf configOk.incoming_data,
               .buf configOk.dest_data, .params (mkTransitionParams configOk), .user 9],
              metalGrid (metalOracleA.tew (if configOk.is16f then pr.2 else pr.1))
                (metalOracleA.maxTotal (if configOk.is16f then pr.2 else pr.1))
                configOk.width configOk.height,
              metalBlock (metalOracleA.tew (if configOk.is16f then pr.2 else pr.1))
                (metalOracleA.maxTotal (if configOk.is16f then pr.2 else pr.1))⟩]) := by
  have h := dispatch_binds_five_slots_in_order cudaOracleA metalOracleA none
    cudaStateEmpty metalStateEmpty configOk 9 "S" "e"
  exact ⟨h.1, h.2.1 _ rfl, h.2.2 _ rfl⟩

/-- Claim C8: whenever the include graph reachable from the source
contains a cycle (a file including itself directly or transitively),
`expand_includes_runtime` — a total function, so it terminates on every
input — returns an error rather than recursing forever; and the Metal
kernel-cache caller then falls back to the embedded shader source: the
call behaves exactly as if hot reload were disabled, instead of failing. -/
theorem include_cycle_errors_and_falls_back (fs : FS) (root : String) (src : List Line)
    (h : HasReachableCycle fs src) :
    (∃ e, expand_includes_runtime fs root src = .error e)
    ∧ ∀ (o : MetalOracle) (st : MetalState) (device : Nat) (embedded fname : String),
        Metal.get_pso_pair o (some ⟨fs, root, some src⟩) st device embedded fname
          = Metal.get_pso_pair o none st device embedded fname := by
  obtain ⟨e, he⟩ := expand_error_of_cycle fs root src h
  refine ⟨⟨e, he⟩, fun o st device embedded fname => ?_⟩
  unfold Metal.get_pso_pair
  simp [select_source, he]

theorem include_cycle_errors_and_falls_back_witness :
    (∃ e, expand_includes_runtime fsCycle "r" srcCycle = .error e)
    ∧ Metal.get_pso_pair metalOracleA (some ⟨fsCycle, "r", some srcCycle⟩)
        metalStateEmpty 1 "emb" "f"
      = Metal.get_pso_pair metalOracleA none metalStateEmpty 1 "emb" "f" := by
  have hcyc : HasReachableCycle fsCycle srcCycle := by
    refine ⟨"a", ⟨"a", ?_, .refl⟩, .single ?_⟩
    · simp [srcCycle, incs]
    · show stepInc fsCycle "a" "a"
      simp [stepInc, fileIncs, fsCycle, assoc, incs]
  have h := include_cycle_errors_and_falls_back fsCycle "r" srcCycle hcyc
  exact ⟨h.1, h.2 metalOracleA metalStateEmpty 1 "emb" "f"⟩

/-- Claim C3 counterexample: `device_handle` is null, every other handle is
valid, and the requested kernel is already cached for (context 1, entry
"e"): the CUDA dispatch does not return an error at all — it performs the
cache lookup, submits the launch and succeeds. -/
theorem cuda_run_null_device_still_submits :
    (Cuda.run cudaOracleA cudaStateCached configNullDevice 9 "X" "e").1 = .ok ()
    ∧ (Cuda.run cudaOracleA cudaStateCached configNullDevice 9 "X" "e").2.launches
        = cudaStateCached.launches + 1
    ∧ configNullDevice.device_handle = 0 := ⟨rfl, rfl, rfl⟩

end PrGpu
